import Mathlib

/-!
Shallow embedding of the action-sequence cache and the plan–execute–verify
task loop of the `zigral` repository (files `src/actions/action_cache.py`
and `src/task/executor.py`), together with proofs settling the frozen
claims about them.

Modelling conventions:
* Python strings are `String`, Python floats arising from success-rate
  arithmetic are `ℚ` (all values involved are exact small rationals),
  machine integers are `Nat`.
* Wall-clock timestamps (`datetime.now()`, `last_used`, the timestamps
  inside partial-success records and the session marker value) carry no
  information used by any claim and are omitted from the embedded data.
* Fallible Python code (exceptions) is embedded with `Except Unit` /
  `Option`; an exception caught by a surrounding `try/except ... return
  None` collapses to `none`.
* Redis is a finite association list of keys to typed values with an
  optional TTL; SQLite is a list of rows.
-/

namespace Zigral

/-! ## Python `str.split()` (split on whitespace runs, dropping empties) -/

/-- Helper for `pySplit`: walks the character list, accumulating the current
word (in reverse) and emitting it when whitespace or the end is reached. -/
def pySplitGo : List Char → List Char → List String
  | [], acc => if acc.isEmpty then [] else [String.mk acc.reverse]
  | c :: cs, acc =>
      if c.isWhitespace then
        if acc.isEmpty then pySplitGo cs [] else String.mk acc.reverse :: pySplitGo cs []
      else pySplitGo cs (c :: acc)

/-- Embedding of Python `s.split()` with no argument: split on runs of
whitespace, never producing empty words. -/
def pySplit (s : String) : List String :=
  pySplitGo s.data []

/-- Embedding of `" ".join(words)`. -/
def joinWords (ws : List String) : String :=
  String.intercalate " " ws

/-- Embedding of Python `s.lower()`: lowercase each character.  (The
library's `String.toLower` is extensionally the same map but is defined by
byte-position recursion; this character-list form is used so terms reduce.) -/
def pyLower (s : String) : String :=
  String.mk (s.data.map Char.toLower)

/-- Embedding of Python `s.strip()`: drop leading and trailing
whitespace. -/
def pyStrip (s : String) : String :=
  String.mk (((s.data.dropWhile Char.isWhitespace).reverse.dropWhile Char.isWhitespace).reverse)

/-- Helper for `pySplitChar`. -/
def pySplitCharGo (sep : Char) : List Char → List Char → List String
  | [], acc => [String.mk acc.reverse]
  | c :: cs, acc =>
      if c = sep then String.mk acc.reverse :: pySplitCharGo sep cs []
      else pySplitCharGo sep cs (c :: acc)

/-- Embedding of Python `s.split(sep)` for a one-character separator:
splits at every occurrence, keeping empty pieces, and never returns an
empty list. -/
def pySplitChar (sep : Char) (s : String) : List String :=
  pySplitCharGo sep s.data []

/-! ## Exact rational arithmetic for Python float expressions

All float values arising in this code are exact small rationals (success
rates, similarity scores), so Python float arithmetic is embedded as ℚ
arithmetic.  The library's `Rat.mul` / `Rat.add` / `Rat.inv` are marked
irreducible, which blocks kernel evaluation of closed terms; the wrappers
below implement the same operations through the reducible normalized
constructor `mkRat` / `Rat.divInt`, and the bridging theorems
`pyMul_eq`, `pyAdd_eq`, `pySub_eq`, `pyDiv_eq`, `simThreshold_eq` (below,
after the definitions) prove each wrapper equal to the ordinary ℚ
operation. -/

/-- ℚ multiplication via the normalized constructor (`pyMul_eq : pyMul a b
= a * b`). -/
def pyMul (a b : ℚ) : ℚ := mkRat (a.num * b.num) (a.den * b.den)

/-- ℚ division via the normalized constructor (`pyDiv_eq : pyDiv a b =
a / b`). -/
def pyDiv (a b : ℚ) : ℚ := Rat.divInt (a.num * b.den) (a.den * b.num)

/-- ℚ addition via the normalized constructor (`pyAdd_eq : pyAdd a b =
a + b`). -/
def pyAdd (a b : ℚ) : ℚ := mkRat (a.num * b.den + b.num * a.den) (a.den * b.den)

/-- ℚ subtraction via the normalized constructor (`pySub_eq : pySub a b =
a - b`). -/
def pySub (a b : ℚ) : ℚ := mkRat (a.num * b.den - b.num * a.den) (a.den * b.den)

/-- The similarity / success-rate threshold `0.8` used throughout
`get_similar_task` (`simThreshold_eq` below). -/
def simThreshold : ℚ := mkRat 8 10

/-! ## `ActionCache._normalize_task` -/

/-- The `navigation` verb-synonym group of `_normalize_task`. -/
def navigationVerbs : List String :=
  ["go to", "navigate to", "open", "visit", "browse to", "load", "access"]

/-- The `search` verb-synonym group of `_normalize_task`. -/
def searchVerbs : List String :=
  ["find", "search for", "look for", "locate", "get", "show", "display", "check", "view"]

/-- The `interaction` verb-synonym group of `_normalize_task`. -/
def interactionVerbs : List String :=
  ["click", "press", "select", "choose", "pick"]

/-- The `input` verb-synonym group of `_normalize_task`. -/
def inputVerbs : List String :=
  ["type", "enter", "input", "fill", "write"]

/-- Looks a word or two-word phrase up in the synonym groups, in the
insertion order of the Python dict (`navigation`, `search`, `interaction`,
`input`), returning the canonical form of the first matching group. -/
def verbCanon (w : String) : Option String :=
  if navigationVerbs.contains w then some "go to"
  else if searchVerbs.contains w then some "find"
  else if interactionVerbs.contains w then some "click"
  else if inputVerbs.contains w then some "type"
  else none

/-- The verb-replacement loop of `_normalize_task`.  Mirrors the in-place
mutation of the Python list `words`: at index `i`, if the two-word phrase
`words[i] + " " + words[i+1]` is a synonym, `words[i:i+2]` is spliced to the
canonical form and iteration resumes at the old index `i+1` (the element
after the splice); the single-word check then still runs on the *old* word
at `i` and overwrites the spliced element when the old word is itself a
synonym (never the case for the phrase heads in the tables, but embedded
faithfully). -/
def canonWords : List String → List String
  | [] => []
  | [w] => [(verbCanon w).getD w]
  | w :: w2 :: rest =>
      match verbCanon (w ++ " " ++ w2) with
      | some c => ((verbCanon w).getD c) :: canonWords rest
      | none => ((verbCanon w).getD w) :: canonWords (w2 :: rest)

/-- The noise-word set stripped by `_normalize_task`. -/
def noiseWords : List String :=
  ["the", "a", "an", "for", "of", "in", "on", "at", "to", "and", "or"]

/-- Embedding of `ActionCache._normalize_task`.  Note the faithful
re-splitting of the joined canonicalized words: a spliced "go to" element
contains a space, so the re-split separates it into "go" and "to", after
which the noise filter removes "to". -/
def normalizeTask (task : String) : String :=
  let ws := pySplit (pyLower task)
  let ws := canonWords ws
  let normalized := joinWords ws
  let ws2 := (pySplit normalized).filter (fun w => ¬ noiseWords.contains w)
  joinWords ws2

/-! ## `ActionCache._calculate_task_similarity` -/

/-- The normalized word set of a task (`set(task_norm.split())`). -/
def wordSet (t : String) : Finset String :=
  (pySplit (normalizeTask t)).toFinset

/-- The canonical action-verb tokens checked by the scorer. -/
def actionVerbs : Finset String :=
  (["go to", "find", "click", "type"] : List String).toFinset

/-- The canonical verbs present in a task's normalized word set. -/
def wordVerbs (t : String) : Finset String :=
  wordSet t ∩ actionVerbs

/-- Embedding of `ActionCache._calculate_task_similarity`.  The third
Python parameter `cached_actions` is unused by the source body and is
omitted.  Returns `none` when both normalized word sets are empty: the
Python code divides by `max(len(words1), len(words2))` before the verb
gate, raising `ZeroDivisionError` (callers catch it and report no match). -/
def calcTaskSimilarity (task1 task2 : String) : Option ℚ :=
  let w1 := wordSet task1
  let w2 := wordSet task2
  let v1 := w1 ∩ actionVerbs
  let v2 := w2 ∩ actionVerbs
  let common := w1 ∩ w2
  if max w1.card w2.card = 0 then none
  else
    let wordScore : ℚ := pyDiv (common.card : ℚ) (max w1.card w2.card : ℚ)
    let verbScore : ℚ := if (v1 ∩ v2).Nonempty then 1 else 0
    some (if verbScore > 0 then pyMul wordScore verbScore else 0)

/-! ## Data model: actions, metadata, the two storage tiers -/

/-- Embedding of the `Action` dataclass.  The `timestamp` field (wall
clock, `datetime.now()`) is omitted; no claim observes it. -/
structure Action where
  type : String
  selector : Option String := none
  url : Option String := none
  text : Option String := none
  timeout : Option Int := none
  key : Option String := none
deriving DecidableEq, Repr

/-- A per-action success/total counter pair, the value shape of
`action_success_rates` entries. -/
structure Stat where
  success : Nat
  total : Nat
deriving DecidableEq, Repr

/-- A JSON-ish metadata value.  `stats` is a success-rates object keyed by
strings (JSON stringifies the Python int keys), `plist` a list of
partial-success records (their wall-clock timestamps omitted, keeping the
`successful_actions` index lists). -/
inductive MVal where
  | stats (m : List (String × Stat))
  | plist (l : List (List Nat))
  | num (q : ℚ)
  | str (s : String)
deriving DecidableEq, Repr

/-- A metadata dictionary: JSON object as an association list. -/
abbrev MetaDict := List (String × MVal)

/-- A Redis value.  `str` models plain string values (the session marker,
the `normalized` key-pointer entries); `seqData` models the serialized
`{actions, metadata}` payload under `sequence:{userId}:{normalizedTask}`;
`sset` models Redis sets (the entity/verb inverted indexes). -/
inductive RVal where
  | str (s : String)
  | seqData (actions : List Action) (meta : MetaDict)
  | sset (members : List String)
deriving DecidableEq, Repr

/-- One Redis key with its value and optional TTL (in seconds; `none`
means no expiry set). -/
structure REntry where
  key : String
  val : RVal
  ttl : Option Nat
deriving DecidableEq, Repr

/-- The Volatile Store: an association list with unique keys. -/
abbrev Redis := List REntry

/-- `SESSION_TIMEOUT = 30 * 60` from the source. -/
def SESSION_TIMEOUT : Nat := 30 * 60

/-- Redis `GET` (also used for `SMEMBERS` sources): the value at a key. -/
def rget (r : Redis) (k : String) : Option RVal :=
  (r.find? (fun e => e.key == k)).map (fun e => e.val)

/-- Redis `SET key value EX ttl`: replace or append. -/
def rset (r : Redis) (k : String) (v : RVal) (ttl : Option Nat) : Redis :=
  if r.any (fun e => e.key == k) then
    r.map (fun e => if e.key == k then ⟨k, v, ttl⟩ else e)
  else r ++ [⟨k, v, ttl⟩]

/-- Redis `EXPIRE key ttl`: refresh the TTL of an existing key (no-op on a
missing key). -/
def rexpire (r : Redis) (k : String) (ttl : Option Nat) : Redis :=
  r.map (fun e => if e.key == k then ⟨e.key, e.val, ttl⟩ else e)

/-- Adding a member to a Redis set value.  On a non-set value real Redis
raises WRONGTYPE; the embedded writers never mix key namespaces, so that
branch is unreachable and leaves the value unchanged here. -/
def saddVal (v : RVal) (m : String) : RVal :=
  match v with
  | .sset ms => .sset (if ms.contains m then ms else ms ++ [m])
  | v => v

/-- Redis `SADD key member`: a fresh key is created without expiry (the
source pipelines a separate `EXPIRE` right after). -/
def rsadd (r : Redis) (k m : String) : Redis :=
  if r.any (fun e => e.key == k) then
    r.map (fun e => if e.key == k then ⟨k, saddVal e.val m, e.ttl⟩ else e)
  else r ++ [⟨k, .sset [m], none⟩]

/-- Redis `SMEMBERS`: member list of a set key; missing key gives the
empty set, a non-set value raises WRONGTYPE. -/
def rsmembersE (r : Redis) (k : String) : Except Unit (List String) :=
  match rget r k with
  | none => .ok []
  | some (.sset ms) => .ok ms
  | some _ => .error ()

/-- A Durable Store row.  `user_id` is `Option` because the schema's
`user_id` column is nullable and `_store_in_db` inserts rows without it;
`last_used` (wall clock) is omitted. -/
structure DbRow where
  task_key : String
  user_id : Option String
  actions : List Action
  success_rate : ℚ
  execution_count : Nat
  avg_execution_time : ℚ
  metadata : MetaDict
deriving DecidableEq, Repr

/-- SQLite `INSERT OR REPLACE` on `PRIMARY KEY (task_key, user_id)`.
SQLite treats NULL as distinct from every value in a (non-`NOT NULL`)
primary key, so a row with NULL `user_id` never conflicts and is always
appended. -/
def dbUpsert (db : List DbRow) (row : DbRow) : List DbRow :=
  match row.user_id with
  | none => db ++ [row]
  | some u =>
      if db.any (fun r => r.task_key == row.task_key && r.user_id == some u) then
        db.map (fun r => if r.task_key == row.task_key && r.user_id == some u then row else r)
      else db ++ [row]

/-- The state owned by an `ActionCache` instance: the Volatile Store, the
Durable Store and the current session's user (if any). -/
structure CacheState where
  redis : Redis
  db : List DbRow
  currentUserId : Option String
deriving DecidableEq, Repr

/-- Key matching for the glob pattern `prefix*` used with `scan_iter`
(none of the embedded prefixes contain further glob characters). -/
def keyHasPrefix (k p : String) : Bool :=
  decide (p.data <+: k.data)

/-! ## Session registry operations -/

/-- Embedding of `ActionCache.extend_session`: refreshes the session
marker's TTL and the TTL of every `sequence:{userId}:*` key.  (The
`user:{userId}:*` index keys are not touched by the source.) -/
def extendSession (st : CacheState) : CacheState :=
  match st.currentUserId with
  | none => st
  | some u =>
      let r := rexpire st.redis ("session:" ++ u) (some SESSION_TIMEOUT)
      let r := r.map (fun e =>
        if keyHasPrefix e.key ("sequence:" ++ u ++ ":") then ⟨e.key, e.val, some SESSION_TIMEOUT⟩
        else e)
      ⟨r, st.db, st.currentUserId⟩

/-- Embedding of `ActionCache.start_session` together with
`_load_user_sequences`: set the session marker, then warm-load every
Durable Store row of this user into the Volatile Store under
`sequence:{userId}:{task_key}`.  The SQL `WHERE user_id = ?` never matches
rows whose `user_id` is NULL. -/
def startSession (st : CacheState) (u : String) : CacheState :=
  let r := rset st.redis ("session:" ++ u) (.str "session") (some SESSION_TIMEOUT)
  let rows := st.db.filter (fun row => row.user_id == some u)
  let r := rows.foldl (fun r row =>
      rset r ("sequence:" ++ u ++ ":" ++ row.task_key) (.seqData row.actions row.metadata)
        (some SESSION_TIMEOUT)) r
  ⟨r, st.db, some u⟩

/-! ## Semantic index and `store_sequence_with_results` -/

/-- The canonical verb tokens the index and the lookup search for in the
normalized components. -/
def canonVerbTokens : List String :=
  ["go to", "find", "click", "type"]

/-- The entity tokens of a normalized component list: for each word
containing a colon, the piece after the first colon
(`w.split(':')[1]`).  The Python set comprehension is embedded as a
deduplicated list; its iteration order only touches distinct keys, so the
order is immaterial. -/
def entityTokens (components : List String) : List String :=
  ((components.filter (fun w => w.data.contains ':')).map
    (fun w => ((pySplitChar ':' w).getD 1 ""))).dedup

/-- The verb tokens of a normalized component list (again a deduplicated
set). -/
def verbTokens (components : List String) : List String :=
  (components.filter (fun w => canonVerbTokens.contains w)).dedup

/-- Embedding of `ActionCache._index_task_semantics`: entity and verb set
memberships plus the `normalized → sequence key` pointer, all with the
session TTL. -/
def indexTaskSemantics (u task sequenceKey : String) (r : Redis) : Redis :=
  let normalized := normalizeTask task
  let components := pySplit normalized
  let r := (entityTokens components).foldl (fun r e =>
      let k := "user:" ++ u ++ ":entity:" ++ e
      rexpire (rsadd r k sequenceKey) k (some SESSION_TIMEOUT)) r
  let r := (verbTokens components).foldl (fun r v =>
      let k := "user:" ++ u ++ ":verb:" ++ v
      rexpire (rsadd r k sequenceKey) k (some SESSION_TIMEOUT)) r
  rset r ("user:" ++ u ++ ":normalized:" ++ normalized) (.str sequenceKey) (some SESSION_TIMEOUT)

/-- The running-average success-rate update `(sr * (n - 1) + 1) / n` of
`store_sequence_with_results` (with `n` the new execution count), written
with the reducible rational primitives (`runningAvg_eq` below restores the
ordinary symbols). -/
def runningAvg (sr : ℚ) (n : Nat) : ℚ :=
  pyDiv (pyAdd (pyMul sr (pySub (n : ℚ) 1)) 1) (n : ℚ)

/-- Embedding of `ActionCache.store_sequence_with_results`.  A fresh
`ActionSequence` is constructed (success_rate 0.0, execution_count 0 —
the source never reads previously cached statistics), per-action stats are
derived from `zip(actions, action_results)`, a partial-success record is
appended when some but not all actions succeeded, `execution_count`
becomes 1 and, if `user_confirmed`, `success_rate` becomes
`(0*(1-1)+1)/1 = 1`.  The payload goes to Redis under
`sequence:{userId}:{normalizedTask}`, is indexed, and a row is written to
the Durable Store by `_store_in_db` — whose INSERT lists no `user_id`
column, leaving that column NULL. -/
def storeSequenceWithResults (st : CacheState) (task : String) (actions : List Action)
    (actionResults : List Bool) (userConfirmed : Bool) : CacheState :=
  match st.currentUserId with
  | none => st
  | some u =>
      let normalized := normalizeTask task
      let pairs := (actions.zip actionResults).enum
      let stats : List (String × Stat) :=
        pairs.map (fun p => (Nat.repr p.1, ⟨if p.2.2 then 1 else 0, 1⟩))
      let successfulIndices := (pairs.filter (fun p => p.2.2)).map (fun p => p.1)
      let partialSucc : List (List Nat) :=
        if successfulIndices ≠ [] ∧ successfulIndices.length < actions.length
        then [successfulIndices] else []
      let executionCount : Nat := 0 + 1
      let successRate : ℚ := if userConfirmed then runningAvg 0 executionCount else 0
      let meta : MetaDict :=
        [("action_success_rates", .stats stats), ("partial_successes", .plist partialSucc)]
      let cacheKey := "sequence:" ++ u ++ ":" ++ normalized
      let r := rset st.redis cacheKey (.seqData actions meta) (some SESSION_TIMEOUT)
      let r := indexTaskSemantics u task cacheKey r
      let row : DbRow := ⟨task, none, actions, successRate, executionCount, 0, meta⟩
      ⟨r, dbUpsert st.db row, st.currentUserId⟩

/-! ## `get_similar_task` -/

/-- The result the lookup returns (= the observable fields of the
`ActionSequence` it constructs). -/
structure SeqResult where
  task_key : String
  actions : List Action
  success_rate : ℚ
  metadata : MetaDict
deriving DecidableEq, Repr

/-- Embedding of `metadata.get('action_success_rates', {}).get('overall', 0)`
followed by the `success_rate >= 0.8` comparison.  When an `overall` entry
exists its value is a success/total dict and the Python comparison raises
TypeError; when the `action_success_rates` value is not a dict the `.get`
raises.  No writer in this code base ever produces either shape. -/
def overallRateE (m : MetaDict) : Except Unit ℚ :=
  match m.lookup "action_success_rates" with
  | none => .ok 0
  | some (.stats l) =>
      match l.lookup "overall" with
      | none => .ok 0
      | some _ => .error ()
  | some _ => .error ()

/-- Embedding of `metadata.get('success_rate', 0)` in the Durable Store
scan, with non-numeric values raising on the `>=` comparison. -/
def dbSuccessRateE (m : MetaDict) : Except Unit ℚ :=
  match m.lookup "success_rate" with
  | none => .ok 0
  | some (.num q) => .ok q
  | some _ => .error ()

/-- `ZeroDivisionError` propagation for the similarity score. -/
def liftOptE (o : Option ℚ) : Except Unit ℚ :=
  match o with
  | some q => .ok q
  | none => .error ()

/-- `candidate_key.split(':')[-1]` (`splitOn` never returns `[]`, so the
default is unreachable). -/
def lastColonSeg (s : String) : String :=
  ((pySplitChar ':' s).getLast?).getD ""

/-- One iteration of the candidate-scoring loop of `get_similar_task`:
skip expired referents, score the rest, and keep the best candidate with
score > best so far, score ≥ 0.8 and recorded `overall` rate ≥ 0.8. -/
def candStep (r : Redis) (task : String) (acc : ℚ × Option SeqResult) (ck : String) :
    Except Unit (ℚ × Option SeqResult) :=
  match rget r ck with
  | none => .ok acc
  | some (.seqData acts meta) => do
      let cachedTask := lastColonSeg ck
      let score ← liftOptE (calcTaskSimilarity task cachedTask)
      let sr ← overallRateE meta
      if score > acc.1 ∧ score ≥ simThreshold ∧ sr ≥ simThreshold then
        .ok (score, some ⟨task, acts, sr, meta⟩)
      else .ok acc
  | some (.str s) => if s = "" then .ok acc else .error ()
  | some (.sset _) => .error ()

/-- One iteration of `_get_similar_task_from_db`'s linear scan. -/
def dbStep (taskLow : String) (acc : ℚ × Option SeqResult) (row : DbRow) :
    Except Unit (ℚ × Option SeqResult) := do
  let cachedTask := pyStrip (pyLower row.task_key)
  let score ← liftOptE (calcTaskSimilarity taskLow cachedTask)
  let sr ← dbSuccessRateE row.metadata
  if score > acc.1 ∧ score ≥ simThreshold ∧ sr ≥ simThreshold then
    .ok (score, some ⟨row.task_key, row.actions, sr, []⟩)
  else .ok acc

/-- Embedding of `ActionCache._get_similar_task_from_db`: lowercase/strip
the query, scan every row (no user filter in the SQL), return the best
match; any exception inside is caught by the method's own handler and
yields `None`. -/
def getSimilarFromDb (db : List DbRow) (task : String) : Option SeqResult :=
  match db.foldlM (dbStep (pyStrip (pyLower task))) ((0 : ℚ), none) with
  | .ok (_, best) => best
  | .error _ => none

/-- The semantic-search branch of `get_similar_task` (exact normalized key
missed): gather candidates from the entity and verb indexes (a Python set —
embedded as a deduplicated list; no proved result depends on its order),
score them, and fall back to the Durable Store scan when no candidate
qualifies. -/
def candidatePath (st : CacheState) (u task normalized : String) :
    Except Unit (Option SeqResult) := do
  let components := pySplit normalized
  let entityMembers ← (entityTokens components).foldlM (fun acc e => do
      let ms ← rsmembersE st.redis ("user:" ++ u ++ ":entity:" ++ e)
      pure (acc ++ ms)) ([] : List String)
  let allMembers ← (verbTokens components).foldlM (fun acc v => do
      let ms ← rsmembersE st.redis ("user:" ++ u ++ ":verb:" ++ v)
      pure (acc ++ ms)) entityMembers
  let candidates := allMembers.dedup
  let best ← candidates.foldlM (candStep st.redis task) ((0 : ℚ), none)
  match best.2 with
  | some seq => pure (some seq)
  | none => pure (getSimilarFromDb st.db task)

/-- Embedding of `ActionCache.get_similar_task` up to the method's outer
`try/except` (applied by `getSimilarTask` below).  With no active session
the source returns `None` immediately.  Otherwise the session TTL is
refreshed, the exact normalized pointer is tried first (gated on the
recorded `overall` success rate), then the semantic candidate search, then
the Durable Store scan. -/
def getSimilarTaskE (st : CacheState) (task : String) : Except Unit (Option SeqResult) :=
  match st.currentUserId with
  | none => .ok none
  | some u =>
      let st := extendSession st
      let normalized := normalizeTask task
      let exactKey := "user:" ++ u ++ ":normalized:" ++ normalized
      match rget st.redis exactKey with
      | none => candidatePath st u task normalized
      | some (.str k) =>
          if k = "" then .ok (getSimilarFromDb st.db task)
          else
            match rget st.redis k with
            | some (.seqData acts meta) => do
                let sr ← overallRateE meta
                if sr ≥ simThreshold then .ok (some ⟨task, acts, sr, meta⟩)
                else .ok (getSimilarFromDb st.db task)
            | some (.str s) => if s = "" then .ok (getSimilarFromDb st.db task) else .error ()
            | some (.sset _) => .error ()
            | none => .ok (getSimilarFromDb st.db task)
      | some (.seqData _ _) => .error ()
      | some (.sset _) => .error ()

/-- `get_similar_task` with its outer exception handler: any raised error
is logged and becomes `None`. -/
def getSimilarTask (st : CacheState) (task : String) : Option SeqResult :=
  match getSimilarTaskE st task with
  | .ok r => r
  | .error _ => none

/-! ## `TaskExecutor.execute_request`

The external collaborators are parameters: `plan r` is the Planner's
answer in planning round `r` (`none` models the `null` internal-failure
result), and `ok r i` is the effective success of action `i` of round `r`
— the browser call's boolean combined with the post-`navigate`
URL-changed verification, both of which are external observations.  The
cached-replay path uses its own oracle `cachedOk i`.  The `while` loop is
given explicit fuel because the source loop does not terminate when the
Planner keeps returning non-empty lists whose actions all succeed; a
`none` result means the fuel ran out. -/

/-- `max_retries = 3` from the source. -/
def maxRetries : Nat := 3

/-- Executing one planned action list: run actions in order, record
`(action, success)` for each executed action, stop at the first failure.
Returns the records and whether a failure occurred. -/
def runActionsGo (ok : Nat → Bool) : List Action → Nat → List (Action × Bool) × Bool
  | [], _ => ([], false)
  | a :: rest, i =>
      if ok i then
        let res := runActionsGo ok rest (i + 1)
        ((a, true) :: res.1, res.2)
      else ([(a, false)], true)

/-- Runs a full action list from index 0. -/
def runActions (acts : List Action) (ok : Nat → Bool) : List (Action × Bool) × Bool :=
  runActionsGo ok acts 0

/-- The arguments of the one `store_sequence_with_results` call the
executor makes.  `resultFlags` records what the downstream truthiness test
sees: the executor passes the per-action result-record dicts where
booleans are expected, and a non-empty dict is always truthy, so every
flag is `true` regardless of the recorded success. -/
structure StoreCall where
  task : String
  actions : List Action
  resultFlags : List Bool
  userConfirmed : Bool
deriving DecidableEq, Repr

/-- The observable outcome of one `execute_request` call: the returned
boolean, the accumulated `action_results` records, how many times the
Planner was invoked, and the store submission (if any). -/
structure ExecResult where
  success : Bool
  records : List (Action × Bool)
  planCalls : Nat
  stored : Option StoreCall
deriving DecidableEq, Repr

/-- The cache-miss retry loop of `execute_request` (`while retry_count <
max_retries`).  A `none` Planner result increments the retry counter and
re-enters the loop; an empty list breaks with success; a round whose
actions all succeed re-enters the loop without touching the retry counter;
a round with a failed action increments the retry counter.  `fuel` bounds
the number of iterations modelled. -/
def planLoop (plan : Nat → Option (List Action)) (ok : Nat → Nat → Bool) :
    Nat → Nat → Nat → List (Action × Bool) → Option (Bool × List (Action × Bool) × Nat)
  | 0, _, _, _ => none
  | fuel + 1, retryCount, planCalls, acc =>
      if retryCount < maxRetries then
        match plan planCalls with
        | none => planLoop plan ok fuel (retryCount + 1) (planCalls + 1) acc
        | some [] => some (true, acc, planCalls + 1)
        | some acts =>
            let res := runActions acts (ok planCalls)
            if res.2 then planLoop plan ok fuel (retryCount + 1) (planCalls + 1) (acc ++ res.1)
            else planLoop plan ok fuel retryCount (planCalls + 1) (acc ++ res.1)
      else some (false, acc, planCalls)

/-- Embedding of `TaskExecutor.execute_request`.  On a cache hit the
cached actions are replayed; the first failure returns `False` and a full
replay returns `True` — both paths return before the storage block, so a
cached run never stores.  On a miss the retry loop runs and afterwards the
executor submits `store_sequence_with_results` only when `action_results`
is non-empty, with `user_confirmed = success`. -/
def executeRequest (st : CacheState) (request : String) (plan : Nat → Option (List Action))
    (ok : Nat → Nat → Bool) (cachedOk : Nat → Bool) (fuel : Nat) : Option ExecResult :=
  match getSimilarTask st request with
  | some cached =>
      let res := runActions cached.actions cachedOk
      some ⟨!res.2, res.1, 0, none⟩
  | none =>
      match planLoop plan ok fuel 0 0 [] with
      | none => none
      | some (succ, acc, pc) =>
          let stored : Option StoreCall :=
            if acc ≠ [] then
              some ⟨request, acc.map (fun r => r.1), acc.map (fun _ => true), succ⟩
            else none
          some ⟨succ, acc, pc, stored⟩

/-! ## Concrete fixtures used by the claim theorems -/

/-- A one-click sample action. -/
def sampleAction : Action :=
  { type := "click", selector := some "#b" }

/-- A cache state right after `start_session(u)` with empty stores: the
session marker is set with the session TTL. -/
def sessionState (u : String) : CacheState :=
  ⟨[⟨"session:" ++ u, .str "session", some SESSION_TIMEOUT⟩], [], some u⟩

/-- The state after storing one confirmed, fully successful run of
"find gbp" under an active session for user `u`. -/
def storedState : CacheState :=
  storeSequenceWithResults (sessionState "u") "find gbp" [sampleAction] [true] true

/-- A Durable Store row whose metadata carries a numeric `success_rate`
(a shape no writer of this code base produces, but the only shape under
which the Durable Store scan can return a match). -/
def hitRow : DbRow :=
  ⟨"find gbp", none, [sampleAction], 1, 1, 0, [("success_rate", .num 1)]⟩

/-- A cache state on which `get_similar_task "find gbp"` yields a hit via
the Durable Store fallback, so that `execute_request` takes the
cached-replay path. -/
def hitState : CacheState :=
  ⟨[], [hitRow], some "u"⟩

/-- A cache state with session, sequence, verb-index and normalized-index
keys all close to expiry (TTL 5 seconds). -/
def agingState : CacheState :=
  ⟨[⟨"session:u", .str "session", some 5⟩,
    ⟨"sequence:u:find gbp", .seqData [sampleAction] [], some 5⟩,
    ⟨"user:u:verb:find", .sset ["sequence:u:find gbp"], some 5⟩,
    ⟨"user:u:normalized:find gbp", .str "sequence:u:find gbp", some 5⟩], [], some "u"⟩

/-- A cache state whose Durable Store holds a sequence for "find gbp" with
`execution_count = 2` and `success_rate = 1/2` (as left by earlier runs),
under an active session. -/
def statState : CacheState :=
  ⟨[⟨"session:u", .str "session", some SESSION_TIMEOUT⟩],
   [⟨"find gbp", some "u", [sampleAction], mkRat 1 2, 2, 0, []⟩], some "u"⟩

/-- The state after storing one confirmed successful run under a session
for user "alice". -/
def aliceStore : CacheState :=
  storeSequenceWithResults (sessionState "alice") "find gbp" [sampleAction] [true] true

/-- A Planner oracle: one one-action round, then the "done" signal. -/
def planOneThenDone : Nat → Option (List Action) :=
  fun r => if r = 0 then some [sampleAction] else some []

/-- A Planner oracle: an internal failure (`null`), then the "done"
signal. -/
def planNullThenDone : Nat → Option (List Action) :=
  fun r => if r = 0 then none else some []

/-- The run outcome of `executeRequest` on the empty state with
`planOneThenDone` and an always-succeeding Action Runner. -/
def resOneThenDone : ExecResult :=
  ⟨true, [(sampleAction, true)], 2, some ⟨"t", [sampleAction], [true], true⟩⟩

/-! # Theorems

First the bridging lemmas restoring the ordinary ℚ symbols for the
reducible arithmetic wrappers, then general lemmas about the embedded
operations, then the claim theorems. -/

/-- `pyMul` is ordinary ℚ multiplication. -/
theorem pyMul_eq (a b : ℚ) : pyMul a b = a * b := by
  rw [pyMul, Rat.mkRat_eq_divInt, Rat.divInt_eq_div]
  conv_rhs => rw [← Rat.num_div_den a, ← Rat.num_div_den b, div_mul_div_comm]
  push_cast
  ring_nf

/-- `pyAdd` is ordinary ℚ addition. -/
theorem pyAdd_eq (a b : ℚ) : pyAdd a b = a + b := by
  have ha : ((a.den : ℚ)) ≠ 0 := by positivity
  have hb : ((b.den : ℚ)) ≠ 0 := by positivity
  rw [pyAdd, Rat.mkRat_eq_divInt, Rat.divInt_eq_div]
  conv_rhs => rw [← Rat.num_div_den a, ← Rat.num_div_den b, div_add_div _ _ ha hb]
  push_cast
  ring_nf

/-- `pySub` is ordinary ℚ subtraction. -/
theorem pySub_eq (a b : ℚ) : pySub a b = a - b := by
  have ha : ((a.den : ℚ)) ≠ 0 := by positivity
  have hb : ((b.den : ℚ)) ≠ 0 := by positivity
  rw [pySub, Rat.mkRat_eq_divInt, Rat.divInt_eq_div]
  conv_rhs => rw [← Rat.num_div_den a, ← Rat.num_div_den b, div_sub_div _ _ ha hb]
  push_cast
  ring_nf

/-- `pyDiv` is ordinary ℚ division. -/
theorem pyDiv_eq (a b : ℚ) : pyDiv a b = a / b := by
  rw [pyDiv, Rat.divInt_eq_div]
  conv_rhs => rw [← Rat.num_div_den a, ← Rat.num_div_den b, div_eq_mul_inv, inv_div,
    div_mul_div_comm]
  push_cast
  ring_nf

/-- The gate threshold is `0.8`. -/
theorem simThreshold_eq : simThreshold = 8 / 10 := by
  rw [simThreshold, Rat.mkRat_eq_divInt, Rat.divInt_eq_div]
  norm_num

/-- The running-average update in ordinary symbols. -/
theorem runningAvg_eq (sr : ℚ) (n : Nat) :
    runningAvg sr n = (sr * ((n : ℚ) - 1) + 1) / (n : ℚ) := by
  rw [runningAvg, pyDiv_eq, pyAdd_eq, pyMul_eq, pySub_eq]

/-- A rate of `0` never passes the `≥ 0.8` gate. -/
theorem zero_not_ge_simThreshold : ¬ ((0 : ℚ) ≥ simThreshold) := by
  rw [simThreshold_eq]
  norm_num

/-! ## Words produced by `pySplit` contain no whitespace -/

/-- Every word emitted by the split helper consists of non-whitespace
characters (given the accumulator does). -/
theorem pySplitGo_no_ws : ∀ (cs : List Char) (acc : List Char),
    (∀ c ∈ acc, c.isWhitespace = false) →
    ∀ w ∈ pySplitGo cs acc, ∀ c ∈ w.data, c.isWhitespace = false := by
  intro cs
  induction cs with
  | nil =>
      intro acc hacc w hw c hc
      by_cases h : acc.isEmpty
      · simp [pySplitGo, h] at hw
      · simp [pySplitGo, h] at hw
        subst hw
        exact hacc c (by simpa using hc)
  | cons d cs ih =>
      intro acc hacc w hw c hc
      by_cases hd : d.isWhitespace
      · by_cases h : acc.isEmpty
        · simp [pySplitGo, hd, h] at hw
          exact ih [] (by simp) w hw c hc
        · simp [pySplitGo, hd, h] at hw
          rcases hw with hw | hw
          · subst hw
            exact hacc c (by simpa using hc)
          · exact ih [] (by simp) w hw c hc
      · simp [pySplitGo, hd] at hw
        refine ih (d :: acc) ?_ w hw c hc
        intro e he
        rcases List.mem_cons.mp he with rfl | he
        · simpa using hd
        · exact hacc e he

/-- Words of `pySplit` contain no whitespace characters. -/
theorem pySplit_no_ws (s : String) (w : String) (hw : w ∈ pySplit s) :
    ∀ c ∈ w.data, c.isWhitespace = false :=
  pySplitGo_no_ws s.data [] (by simp) w hw

/-- The two-word canonical token "go to" can never be a member of a word
set: word sets come from whitespace splitting, and "go to" contains a
space. -/
theorem goTo_not_mem_wordSet (t : String) : "go to" ∉ wordSet t := by
  intro h
  rw [wordSet, List.mem_toFinset] at h
  have := pySplit_no_ws (normalizeTask t) "go to" h ' ' (by decide)
  simp at this

/-! ## C5: the similarity formula and the "go to" gate -/

/-- C5 counterexample: the claim predicts that "open x" and "visit x"
share the canonical verb "go to" and score their full word overlap (here
`1`); in fact both normalize to "go x" (identical word sets, full
overlap), yet the score is `0`, because the canonical navigation token
"go to" is destroyed by re-splitting and noise-stripping and thus never
appears in any word set. -/
theorem navigationSynonymsScoreZero :
    normalizeTask "open x" = "go x" ∧ normalizeTask "visit x" = "go x" ∧
    wordSet "open x" = wordSet "visit x" ∧
    calcTaskSimilarity "open x" "visit x" = some 0 ∧
    calcTaskSimilarity "open x" "visit x" ≠ some 1 := by
  refine ⟨by decide, by decide, by decide, by decide, by decide⟩

/-- C5 amended: the score is `|common words| / max(|words1|, |words2|)`
gated by a shared canonical verb *token* (`ZeroDivisionError`, embedded as
`none`, when both normalized word sets are empty) — but the navigation
token "go to" can never occur in a word set, so only `find`, `click` and
`type` can actually open the gate, and two navigation-synonym tasks score
`0` rather than their word overlap. -/
theorem similarityFormula (t1 t2 : String) :
    "go to" ∉ wordSet t1 ∧
    calcTaskSimilarity t1 t2 =
      (if max (wordSet t1).card (wordSet t2).card = 0 then none
       else some (if (wordVerbs t1 ∩ wordVerbs t2).Nonempty then
           ((wordSet t1 ∩ wordSet t2).card : ℚ) /
             (max (wordSet t1).card (wordSet t2).card : ℚ)
         else 0)) := by
  refine ⟨goTo_not_mem_wordSet t1, ?_⟩
  rw [calcTaskSimilarity, wordVerbs, wordVerbs]
  by_cases hmax : max (wordSet t1).card (wordSet t2).card = 0
  · simp [hmax]
  · simp only [hmax, if_false]
    by_cases hne : ((wordSet t1 ∩ actionVerbs) ∩ (wordSet t2 ∩ actionVerbs)).Nonempty
    · simp only [hne, if_true]
      rw [if_pos (by norm_num : (1 : ℚ) > 0), pyMul_eq, pyDiv_eq, mul_one]
    · simp only [hne, if_false]
      rw [if_neg (by norm_num : ¬ ((0 : ℚ) > 0))]

/-! ## The recorded "overall" success rate is dead: lookup structure -/

/-- `Except` bind on a success, by definition. -/
theorem ok_bind {α β : Type} (a : α) (f : α → Except Unit β) :
    (Except.ok a >>= f) = f a := rfl

/-- `Except` bind on a failure, by definition. -/
theorem error_bind {α β : Type} (f : α → Except Unit β) :
    ((Except.error () : Except Unit α) >>= f) = Except.error () := rfl

/-- `overallRateE` either raises or yields `0`: the `overall` key is read
from the per-action stats object, whose values are success/total pairs, so
a present entry makes the later `>= 0.8` comparison raise, and an absent
entry defaults to `0`. -/
theorem overallRateE_cases (m : MetaDict) :
    overallRateE m = .ok 0 ∨ overallRateE m = .error () := by
  rw [overallRateE]
  rcases h : List.lookup "action_success_rates" m with _ | v
  · simp
  · cases v with
    | stats l =>
        rcases hl : List.lookup "overall" l with _ | s
        · simp [hl]
        · simp [hl]
    | plist l => simp
    | num q => simp
    | str s => simp

/-- One candidate-scoring step never produces a new best candidate: the
recorded rate is `0` (or raises), and `0 < 0.8`. -/
theorem candStep_no_new (r : Redis) (task : String) (acc : ℚ × Option SeqResult) (ck : String) :
    candStep r task acc ck = .error () ∨ candStep r task acc ck = .ok acc := by
  rw [candStep]
  rcases hv : rget r ck with _ | v
  · simp
  · cases v with
    | str s => by_cases hs : s = "" <;> simp [hs]
    | sset ms => simp
    | seqData acts meta =>
        rcases hsc : calcTaskSimilarity task (lastColonSeg ck) with _ | q
        · simp [liftOptE, hsc, error_bind]
        · rcases overallRateE_cases meta with ho | ho
          · have hgate : ¬ (q > acc.1 ∧ q ≥ simThreshold ∧ (0 : ℚ) ≥ simThreshold) :=
              fun hg => zero_not_ge_simThreshold hg.2.2
            simp [liftOptE, hsc, ho, ok_bind, hgate]
          · simp [liftOptE, hsc, ho, ok_bind, error_bind]

/-- Folding the candidate-scoring step either raises or returns the
accumulator unchanged. -/
theorem foldlM_candStep (r : Redis) (task : String) :
    ∀ (cs : List String) (acc : ℚ × Option SeqResult),
      cs.foldlM (candStep r task) acc = .error () ∨
      cs.foldlM (candStep r task) acc = .ok acc := by
  intro cs
  induction cs with
  | nil => intro acc; exact Or.inr rfl
  | cons c cs ih =>
      intro acc
      rcases candStep_no_new r task acc c with h | h
      · exact Or.inl (by simp [List.foldlM, h, error_bind])
      · rcases ih acc with h2 | h2
        · exact Or.inl (by simp [List.foldlM, h, ok_bind, h2])
        · exact Or.inr (by simp [List.foldlM, h, ok_bind, h2])

/-- `extend_session` only touches TTLs: the Durable Store is unchanged. -/
theorem extendSession_db (st : CacheState) : (extendSession st).db = st.db := by
  rw [extendSession]
  rcases h : st.currentUserId with _ | u <;> rfl

/-- The semantic-search branch either raises or falls through to the
Durable Store scan: no candidate can pass the dead `overall` gate. -/
theorem candidatePath_cases (st : CacheState) (u task n : String) :
    candidatePath st u task n = .error () ∨
    candidatePath st u task n = .ok (getSimilarFromDb st.db task) := by
  rcases h1 : (entityTokens (pySplit n)).foldlM (fun acc e => do
        let ms ← rsmembersE st.redis ("user:" ++ u ++ ":entity:" ++ e)
        pure (acc ++ ms)) ([] : List String) with u1 | ms1
  · cases u1
    exact Or.inl (by simp only [candidatePath, h1, error_bind])
  · rcases h2 : (verbTokens (pySplit n)).foldlM (fun acc v => do
        let ms ← rsmembersE st.redis ("user:" ++ u ++ ":verb:" ++ v)
        pure (acc ++ ms)) ms1 with u2 | ms2
    · cases u2
      exact Or.inl (by simp only [candidatePath, h1, h2, ok_bind, error_bind])
    · rcases foldlM_candStep st.redis task ms2.dedup ((0 : ℚ), none) with h3 | h3
      · exact Or.inl (by simp only [candidatePath, h1, h2, h3, ok_bind, error_bind])
      · refine Or.inr ?_
        simp only [candidatePath, h1, h2, h3, ok_bind, error_bind]
        rfl

/-- Master lemma: `get_similar_task` either returns nothing or returns
exactly what the Durable Store fallback scan returns.  Neither the exact
normalized match nor the candidate scoring can ever return a sequence,
because the recorded rate they gate on reads the never-written `overall`
key of `action_success_rates` and so is `0` (or raises, which the outer
handler turns into `None`). -/
theorem getSimilarTask_cases (st : CacheState) (task : String) :
    getSimilarTask st task = none ∨
    getSimilarTask st task = getSimilarFromDb st.db task := by
  rw [getSimilarTask, getSimilarTaskE]
  rcases hcu : st.currentUserId with _ | u
  · exact Or.inl rfl
  · dsimp only
    have hdb : (extendSession st).db = st.db := extendSession_db st
    rw [hdb]
    rcases hx : rget (extendSession st).redis
        ("user:" ++ u ++ ":normalized:" ++ normalizeTask task) with _ | v
    · dsimp only
      rcases candidatePath_cases (extendSession st) u task (normalizeTask task) with h | h
      · rw [h]
        exact Or.inl rfl
      · rw [hdb] at h
        rw [h]
        exact Or.inr rfl
    · cases v with
      | seqData acts meta => exact Or.inl rfl
      | sset ms => exact Or.inl rfl
      | str k =>
          dsimp only
          by_cases hk : k = ""
          · rw [if_pos hk]
            exact Or.inr rfl
          · rw [if_neg hk]
            rcases hv2 : rget (extendSession st).redis k with _ | v2
            · exact Or.inr rfl
            · cases v2 with
              | seqData acts meta =>
                  dsimp only
                  rcases overallRateE_cases meta with ho | ho
                  · rw [ho, ok_bind, if_neg (fun h => zero_not_ge_simThreshold h)]
                    exact Or.inr rfl
                  · rw [ho, error_bind]
                    exact Or.inl rfl
              | str s =>
                  dsimp only
                  by_cases hs : s = ""
                  · rw [if_pos hs]
                    exact Or.inr rfl
                  · rw [if_neg hs]
                    exact Or.inl rfl
              | sset ms => exact Or.inl rfl

/-! ## The Durable Store scan -/

/-- Folding a step that either raises or preserves the accumulator either
raises or returns the initial accumulator. -/
theorem foldlM_preserve {α β : Type} (f : β → α → Except Unit β) :
    ∀ (l : List α), (∀ acc a, a ∈ l → f acc a = .error () ∨ f acc a = .ok acc) →
      ∀ acc, l.foldlM f acc = .error () ∨ l.foldlM f acc = .ok acc := by
  intro l
  induction l with
  | nil => intro _ acc; exact Or.inr rfl
  | cons x xs ih =>
      intro hf acc
      rcases hf acc x (List.mem_cons_self x xs) with h | h
      · exact Or.inl (by simp [List.foldlM, h, error_bind])
      · rcases ih (fun acc a ha => hf acc a (List.mem_cons_of_mem x ha)) acc with h2 | h2
        · exact Or.inl (by simp [List.foldlM, h, ok_bind, h2])
        · exact Or.inr (by simp [List.foldlM, h, ok_bind, h2])

/-- `dbSuccessRateE` yields some rate or raises. -/
theorem dbSuccessRateE_cases (m : MetaDict) :
    (∃ q, dbSuccessRateE m = .ok q) ∨ dbSuccessRateE m = .error () := by
  rw [dbSuccessRateE]
  rcases h : List.lookup "success_rate" m with _ | v
  · exact Or.inl ⟨0, rfl⟩
  · cases v with
    | num q => exact Or.inl ⟨q, rfl⟩
    | stats l => exact Or.inr rfl
    | plist l => exact Or.inr rfl
    | str s => exact Or.inr rfl

/-- A Durable row with no `success_rate` metadata entry never becomes the
best match (its rate defaults to `0 < 0.8`). -/
theorem dbStep_zero_sr (tl : String) (acc : ℚ × Option SeqResult) (row : DbRow)
    (h : List.lookup "success_rate" row.metadata = none) :
    dbStep tl acc row = .error () ∨ dbStep tl acc row = .ok acc := by
  have hsr : dbSuccessRateE row.metadata = .ok 0 := by rw [dbSuccessRateE, h]
  rw [dbStep]
  rcases hsc : calcTaskSimilarity tl (pyStrip (pyLower row.task_key)) with _ | q
  · exact Or.inl (by simp only [liftOptE, hsc, error_bind])
  · refine Or.inr ?_
    simp only [liftOptE, hsc, ok_bind, hsr]
    rw [if_neg (fun hg => zero_not_ge_simThreshold hg.2.2)]

/-- A Durable row whose similarity score against the query is `0` (or
raises) never becomes the best match. -/
theorem dbStep_zero_score (tl : String) (acc : ℚ × Option SeqResult) (row : DbRow)
    (h : calcTaskSimilarity tl (pyStrip (pyLower row.task_key)) = some 0 ∨
         calcTaskSimilarity tl (pyStrip (pyLower row.task_key)) = none) :
    dbStep tl acc row = .error () ∨ dbStep tl acc row = .ok acc := by
  rw [dbStep]
  rcases h with h | h
  · rcases dbSuccessRateE_cases row.metadata with ⟨q, hq⟩ | hq
    · refine Or.inr ?_
      simp only [liftOptE, h, ok_bind, hq]
      rw [if_neg (fun hg => zero_not_ge_simThreshold hg.2.1)]
    · exact Or.inl (by simp only [liftOptE, h, ok_bind, hq, error_bind])
  · exact Or.inl (by simp only [liftOptE, h, error_bind])

/-- The Durable Store scan returns nothing when every row lacks a
`success_rate` metadata entry — which is the shape this code base always
persists (`_store_in_db` writes only `action_success_rates` and
`partial_successes`). -/
theorem getSimilarFromDb_no_rate (db : List DbRow) (t : String)
    (h : ∀ row ∈ db, List.lookup "success_rate" row.metadata = none) :
    getSimilarFromDb db t = none := by
  rw [getSimilarFromDb]
  rcases foldlM_preserve (dbStep (pyStrip (pyLower t))) db
      (fun acc row hrow => dbStep_zero_sr _ acc row (h row hrow)) ((0 : ℚ), none) with h2 | h2
  · rw [h2]
  · rw [h2]

/-! ## The shape of the state written by `store_sequence_with_results` -/

/-- Under an active session, storing appends one Durable row keyed by the
raw task with NULL `user_id`, `execution_count = 1` and metadata holding
exactly the per-action stats and the partial-success log. -/
theorem storeSequenceWithResults_db (st : CacheState) (u task : String)
    (acts : List Action) (res : List Bool) (conf : Bool)
    (h : st.currentUserId = some u) :
    ∃ sr stats pS,
      (storeSequenceWithResults st task acts res conf).db =
        st.db ++ [⟨task, none, acts, sr, 1, 0,
          [("action_success_rates", .stats stats), ("partial_successes", .plist pS)]⟩] ∧
      sr = (if conf then runningAvg 0 1 else 0) := by
  obtain ⟨r, db, cu⟩ := st
  simp only at h
  subst h
  exact ⟨_, _, _, rfl, rfl⟩

/-! ## C6: verb mismatch (and in fact any session-stored sequence) is
never returned -/

/-- C6: after storing a sequence for `task2` under a fresh session, a
query that shares no canonical verb with it gets nothing back.  (The code
meets the claim for a reason stronger than the verb gate: neither Volatile
path can pass the dead `overall` rate gate, and the Durable row persisted
by `store_sequence_with_results` has no `success_rate` metadata entry, so
the fallback scan's gate fails too.) -/
theorem verbMismatchReturnsAbsent (u task2 query : String) (acts : List Action)
    (res : List Bool) (conf : Bool)
    (hverb : wordVerbs query ∩ wordVerbs task2 = ∅) :
    getSimilarTask (storeSequenceWithResults (sessionState u) task2 acts res conf) query
      = none := by
  obtain ⟨sr, stats, pS, hdbs, -⟩ :=
    storeSequenceWithResults_db (sessionState u) u task2 acts res conf rfl
  rcases getSimilarTask_cases (storeSequenceWithResults (sessionState u) task2 acts res conf)
      query with h | h
  · exact h
  · rw [h, hdbs]
    refine getSimilarFromDb_no_rate _ query ?_
    intro row hrow
    rcases List.mem_append.mp hrow with h1 | h1
    · simp [sessionState] at h1
    · rw [List.mem_singleton.mp h1]
      rfl

/-- C6 witness: the spec's own example, "find GBP/USD" stored, "close
GBP/USD" queried. -/
theorem verbMismatchReturnsAbsent_witness :
    wordVerbs "close GBP/USD" ∩ wordVerbs "find GBP/USD" = ∅ ∧
    getSimilarTask (storeSequenceWithResults (sessionState "u") "find GBP/USD"
      [sampleAction] [true] true) "close GBP/USD" = none :=
  ⟨by decide, verbMismatchReturnsAbsent "u" "find GBP/USD" "close GBP/USD"
    [sampleAction] [true] true (by decide)⟩

/-! ## C1: the store/lookup round-trip is broken -/

/-- C1 (code bug): immediately after a confirmed, fully successful
`store_sequence_with_results` for "find gbp", `get_similar_task` with the
identical task string returns nothing — even though the sequence payload
is present in the Volatile Store.  The exact-match path gates on
`metadata['action_success_rates']['overall']`, which no writer ever sets
(so the recorded rate is 0 < 0.8), and the Durable fallback gates on
`metadata['success_rate']`, which `_store_in_db` never writes either. -/
theorem storeThenGetReturnsNone :
    getSimilarTask storedState "find gbp" = none ∧
    rget storedState.redis "sequence:u:find gbp" ≠ none := by
  exact ⟨by decide, by decide⟩

/-! ## C10: tasks without a canonical verb -/

/-- A task with no canonical verb in its word set scores `0` against every
other task — except that comparing two tasks that both normalize to
nothing raises `ZeroDivisionError` (the division happens before the verb
gate), embedded as `none`. -/
theorem verbFree_score (t : String) (h : wordVerbs t = ∅) (t2 : String) :
    calcTaskSimilarity t t2 = some 0 ∨ calcTaskSimilarity t t2 = none := by
  rw [calcTaskSimilarity]
  by_cases hmax : max (wordSet t).card (wordSet t2).card = 0
  · exact Or.inr (by simp [hmax])
  · refine Or.inl ?_
    rw [wordVerbs] at h
    have hne : ¬ ((wordSet t ∩ actionVerbs) ∩ (wordSet t2 ∩ actionVerbs)).Nonempty := by
      rw [h]
      simp
    simp only [hmax, if_false, hne]
    rw [if_neg (by norm_num : ¬ ((0 : ℚ) > 0))]

/-- C10 counterexample: for the task "the" (normalized form empty, hence
no canonical verb), the self-comparison does not score `0` as the claim
states — the scorer divides by `max(0, 0)` and raises, which callers
report as no match. -/
theorem emptyNormalizedSelfScoreRaises :
    wordVerbs "the" = ∅ ∧ normalizeTask "the" = "" ∧
    calcTaskSimilarity "the" "the" = none ∧
    calcTaskSimilarity "the" "the" ≠ some 0 := by
  exact ⟨by decide, by decide, by decide, by decide⟩

/-- C10 amended: a task with no canonical verb scores `0` against every
other task whenever the score is defined (both normalized forms empty
raises instead, and is treated as no match), and such a query is never
answered: the Durable Store scan returns nothing for it (the second
hypothesis covers the scan's extra lowercase/strip preprocessing of the
query), and `get_similar_task` as a whole returns nothing. -/
theorem verbFreeTaskNeverReturned (t : String)
    (h1 : wordVerbs t = ∅) (h2 : wordVerbs (pyStrip (pyLower t)) = ∅) :
    (∀ t2, calcTaskSimilarity t t2 = some 0 ∨ calcTaskSimilarity t t2 = none) ∧
    (∀ db, getSimilarFromDb db t = none) ∧
    (∀ st, getSimilarTask st t = none) := by
  have hdbAll : ∀ db, getSimilarFromDb db t = none := by
    intro db
    rw [getSimilarFromDb]
    rcases foldlM_preserve (dbStep (pyStrip (pyLower t))) db
        (fun acc row _ => dbStep_zero_score _ acc row
          (verbFree_score (pyStrip (pyLower t)) h2 (pyStrip (pyLower row.task_key))))
        ((0 : ℚ), none) with hf | hf
    · rw [hf]
    · rw [hf]
  refine ⟨verbFree_score t h1, hdbAll, ?_⟩
  intro st
  rcases getSimilarTask_cases st t with h | h
  · exact h
  · rw [h]
    exact hdbAll st.db

/-- C10 witness: the noise word "the" has an empty normalized form before
and after the scan's preprocessing; the theorem applies and, e.g., the
scan of a one-row Durable Store returns nothing for it. -/
theorem verbFreeTaskNeverReturned_witness :
    wordVerbs "the" = ∅ ∧ wordVerbs (pyStrip (pyLower "the")) = ∅ ∧
    getSimilarFromDb [hitRow] "the" = none :=
  ⟨by decide, by decide,
    (verbFreeTaskNeverReturned "the" (by decide) (by decide)).2.1 [hitRow]⟩

/-! ## C3: the success-rate update ignores the cached statistics -/

/-- C3 counterexample: with a cached Durable row for "find gbp" carrying
`execution_count = 2`, `success_rate = 1/2`, a confirmed store for the
same task does not produce `execution_count = 3` and
`success_rate = (1/2*2+1)/3 = 2/3`; it appends a fresh row with count `1`
and rate `1` (and, `user_id` being NULL, does not even replace the old
row). -/
theorem confirmedStoreResetsStats :
    (storeSequenceWithResults statState "find gbp" [sampleAction] [true] true).db.map
      (fun r => r.execution_count) = [2, 1] ∧
    (¬ ∃ row ∈ (storeSequenceWithResults statState "find gbp" [sampleAction] [true] true).db,
        row.execution_count = 3) ∧
    (¬ ∃ row ∈ (storeSequenceWithResults statState "find gbp" [sampleAction] [true] true).db,
        row.success_rate = mkRat 2 3) ∧
    (∃ row ∈ (storeSequenceWithResults statState "find gbp" [sampleAction] [true] true).db,
        row.execution_count = 1 ∧ row.success_rate = 1) := by
  exact ⟨by decide, by decide, by decide, by decide⟩

/-- C3 amended: `store_sequence_with_results` builds a fresh sequence and
never reads the cached statistics: under an active session a confirmed
store appends a Durable row with `execution_count = 1` and
`success_rate = (0*(1-1)+1)/1 = 1`, whatever `n` and `r` the cached
sequence had.  In particular the stored success rate never decreases on a
confirmed success, since `1` is the maximum rate. -/
theorem storeWritesFreshStats (st : CacheState) (u task : String)
    (acts : List Action) (res : List Bool)
    (h : st.currentUserId = some u) :
    ∃ row : DbRow, (storeSequenceWithResults st task acts res true).db = st.db ++ [row] ∧
      row.task_key = task ∧ row.user_id = none ∧ row.execution_count = 1 ∧
      row.success_rate = (0 * ((1 : ℚ) - 1) + 1) / 1 ∧ row.success_rate = 1 ∧
      ∀ r : ℚ, r ≤ 1 → r ≤ row.success_rate := by
  obtain ⟨sr, stats, pS, hdbs, hsr⟩ := storeSequenceWithResults_db st u task acts res true h
  have hone : sr = 1 := by
    rw [hsr, if_pos rfl, runningAvg_eq]
    norm_num
  refine ⟨_, hdbs, rfl, rfl, rfl, ?_, hone, ?_⟩
  · rw [hone]
    norm_num
  · intro r hr
    rw [hone]
    exact hr

/-- C3 witness: the amended statement applied to the fixture state with a
cached `(n, r) = (2, 1/2)` row. -/
theorem storeWritesFreshStats_witness :
    statState.currentUserId = some "u" ∧
    ∃ row : DbRow,
      (storeSequenceWithResults statState "find gbp" [sampleAction] [true] true).db =
        statState.db ++ [row] ∧
      row.task_key = "find gbp" ∧ row.user_id = none ∧ row.execution_count = 1 ∧
      row.success_rate = (0 * ((1 : ℚ) - 1) + 1) / 1 ∧ row.success_rate = 1 ∧
      ∀ r : ℚ, r ≤ 1 → r ≤ row.success_rate :=
  ⟨rfl, storeWritesFreshStats statState "u" "find gbp" [sampleAction] [true] rfl⟩

/-! ## C8: `extend_session` does not refresh the index keys -/

/-- C8 counterexample: on a state where every key is close to expiry,
`extend_session` refreshes the session marker and the sequence entry, but
leaves the verb-index and normalized-index keys (`user:{userId}:*`) at
their old TTL. -/
theorem extendSessionSkipsIndexKeys :
    (extendSession agingState).redis.map (fun e => (e.key, e.ttl)) =
      [("session:u", some SESSION_TIMEOUT), ("sequence:u:find gbp", some SESSION_TIMEOUT),
       ("user:u:verb:find", some 5), ("user:u:normalized:find gbp", some 5)] ∧
    (∃ e ∈ (extendSession agingState).redis,
        keyHasPrefix e.key "user:u:" = true ∧ e.ttl ≠ some SESSION_TIMEOUT) := by
  exact ⟨by decide, by decide⟩

/-- C8 amended: under an active session, `extend_session` refreshes
exactly the session marker and the keys under `sequence:{userId}:*` — and
nothing else, so the entity/verb/normalized index entries keep their old
TTLs. -/
theorem extendSessionRefreshCharacterization (st : CacheState) (u : String)
    (h : st.currentUserId = some u) :
    (extendSession st).redis = st.redis.map (fun e =>
      if e.key == "session:" ++ u || keyHasPrefix e.key ("sequence:" ++ u ++ ":")
      then ⟨e.key, e.val, some SESSION_TIMEOUT⟩ else e) ∧
    (extendSession st).db = st.db ∧
    (extendSession st).currentUserId = st.currentUserId := by
  obtain ⟨r, db, cu⟩ := st
  simp only at h
  subst h
  refine ⟨?_, rfl, rfl⟩
  show (List.map _ (List.map _ r)) = _
  rw [List.map_map]
  refine List.map_congr_left ?_
  intro e _
  show (if keyHasPrefix (if (e.key == "session:" ++ u) = true then
      (⟨e.key, e.val, some SESSION_TIMEOUT⟩ : REntry) else e).key ("sequence:" ++ u ++ ":")
      then _ else _) = _
  by_cases h1 : (e.key == "session:" ++ u) = true <;>
    by_cases h2 : keyHasPrefix e.key ("sequence:" ++ u ++ ":") = true <;>
      simp [rexpire, h1, h2]

/-- C8 witness: the characterization applied to the aging fixture
state. -/
theorem extendSessionRefreshCharacterization_witness :
    agingState.currentUserId = some "u" ∧
    (extendSession agingState).redis = agingState.redis.map (fun e =>
      if e.key == "session:" ++ "u" || keyHasPrefix e.key ("sequence:" ++ "u" ++ ":")
      then ⟨e.key, e.val, some SESSION_TIMEOUT⟩ else e) :=
  ⟨rfl, (extendSessionRefreshCharacterization agingState "u" rfl).1⟩

/-! ## C9: the Durable row loses the session's user -/

/-- C9 (code bug): `_store_in_db`'s INSERT names no `user_id` column, so
the Durable row persisted on behalf of user "alice" has NULL `user_id`;
a later `start_session("alice")` therefore warm-loads nothing — its
Volatile Store holds only the new session marker, not the stored
sequence. -/
theorem dbRowLosesUserId :
    aliceStore.db.map (fun r => (r.task_key, r.user_id)) = [("find gbp", none)] ∧
    (startSession ⟨[], aliceStore.db, none⟩ "alice").redis.map (fun e => e.key) =
      ["session:alice"] ∧
    ((startSession ⟨[], aliceStore.db, none⟩ "alice").redis.filter
      (fun e => keyHasPrefix e.key "sequence:")).length = 0 := by
  exact ⟨by decide, by decide, by decide⟩

/-! ## Executor lemmas -/

/-- A round with some failing action (relative to the start index) ends
with the failure flag set. -/
theorem runActionsGo_failed (ok : Nat → Bool) :
    ∀ (acts : List Action) (i : Nat),
      (∃ j, j < acts.length ∧ ok (i + j) = false) →
      (runActionsGo ok acts i).2 = true := by
  intro acts
  induction acts with
  | nil =>
      intro i hj
      obtain ⟨j, hj, -⟩ := hj
      exact absurd hj (by simp)
  | cons a rest ih =>
      intro i hj
      obtain ⟨j, hj, hf⟩ := hj
      rw [runActionsGo]
      by_cases hok : ok i = true
      · rw [if_pos hok]
        dsimp only
        apply ih (i + 1)
        cases j with
        | zero =>
            rw [Nat.add_zero] at hf
            exact absurd hf (by simp [hok])
        | succ m =>
            refine ⟨m, by simpa using hj, ?_⟩
            rw [show i + 1 + m = i + (m + 1) from by omega]
            exact hf
      · rw [if_neg hok]

/-- When every planning round fails (a `null` plan or a failing action),
the retry loop runs exactly the remaining retry budget, invoking the
Planner once per round, and reports failure — for any sufficient fuel,
with a fuel-independent outcome. -/
theorem planLoop_allFail (plan : Nat → Option (List Action)) (ok : Nat → Nat → Bool)
    (H : ∀ r, plan r = none ∨
        ∃ acts, plan r = some acts ∧ ∃ i, i < acts.length ∧ ok r i = false) :
    ∀ (k retry pc : Nat) (acc : List (Action × Bool)), retry + k = maxRetries →
      ∃ acc2, ∀ fuel, k + 1 ≤ fuel →
        planLoop plan ok fuel retry pc acc = some (false, acc2, pc + k) := by
  intro k
  induction k with
  | zero =>
      intro retry pc acc hr
      refine ⟨acc, ?_⟩
      intro fuel hf
      match fuel, hf with
      | fuel + 1, _ =>
        rw [planLoop, if_neg (by omega : ¬ retry < maxRetries), Nat.add_zero]
  | succ k ih =>
      intro retry pc acc hr
      have hlt : retry < maxRetries := by omega
      rcases H pc with hp | ⟨acts, hp, hfail⟩
      · obtain ⟨acc2, h2⟩ := ih (retry + 1) (pc + 1) acc (by omega)
        refine ⟨acc2, ?_⟩
        intro fuel hf
        match fuel, hf with
        | fuel + 1, hf =>
          rw [planLoop, if_pos hlt, hp, h2 fuel (by omega),
            show pc + 1 + k = pc + (k + 1) from by omega]
      · rcases acts with _ | ⟨a, rest⟩
        · obtain ⟨i, hi, -⟩ := hfail
          exact absurd hi (by simp)
        · obtain ⟨acc2, h2⟩ :=
            ih (retry + 1) (pc + 1) (acc ++ (runActions (a :: rest) (ok pc)).1) (by omega)
          refine ⟨acc2, ?_⟩
          intro fuel hf
          match fuel, hf with
          | fuel + 1, hf =>
            have hres : (runActions (a :: rest) (ok pc)).2 = true :=
              runActionsGo_failed (ok pc) (a :: rest) 0 (by simpa using hfail)
            rw [planLoop, if_pos hlt, hp]
            dsimp only
            rw [if_pos hres, h2 fuel (by omega),
              show pc + 1 + k = pc + (k + 1) from by omega]

/-! ## C4: the retry bound -/

/-- C4: on a cache miss where every planning round either returns `null`
or contains a failing action, the executor invokes the Planner exactly
`maxRetries = 3` times, the loop terminates (the same outcome for every
fuel ≥ 4), and the call reports overall failure. -/
theorem retryBoundHolds (st : CacheState) (request : String)
    (plan : Nat → Option (List Action)) (ok : Nat → Nat → Bool) (cachedOk : Nat → Bool)
    (hmiss : getSimilarTask st request = none)
    (H : ∀ r, plan r = none ∨
        ∃ acts, plan r = some acts ∧ ∃ i, i < acts.length ∧ ok r i = false) :
    ∃ res : ExecResult, res.success = false ∧ res.planCalls ≤ 3 ∧
      ∀ fuel, 4 ≤ fuel → executeRequest st request plan ok cachedOk fuel = some res := by
  obtain ⟨acc2, hloop⟩ := planLoop_allFail plan ok H 3 0 0 [] rfl
  simp only [Nat.zero_add] at hloop
  refine ⟨⟨false, acc2, 3,
    if acc2 ≠ [] then
      some ⟨request, acc2.map (fun r => r.1), acc2.map (fun _ => true), false⟩
    else none⟩, rfl, Nat.le_refl 3, ?_⟩
  intro fuel hf
  rw [executeRequest, hmiss]
  dsimp only
  rw [hloop fuel (by omega)]

/-- C4 witness: an always-`null` Planner on an empty cache state. -/
theorem retryBoundHolds_witness :
    getSimilarTask (⟨[], [], none⟩ : CacheState) "t" = none ∧
    ∃ res : ExecResult, res.success = false ∧ res.planCalls ≤ 3 ∧
      ∀ fuel, 4 ≤ fuel →
        executeRequest ⟨[], [], none⟩ "t" (fun _ => none) (fun _ _ => true) (fun _ => true)
          fuel = some res :=
  ⟨by decide, retryBoundHolds ⟨[], [], none⟩ "t" (fun _ => none) (fun _ _ => true)
    (fun _ => true) (by decide) (fun _ => Or.inl rfl)⟩

/-! ## C7: `null` plans versus empty plans -/

/-- C7: within the retry budget, a `null` Planner result re-enters the
loop with the retry counter incremented (a retryable planning failure,
counted against the budget), while an empty — but non-null — action list
immediately ends the loop with overall success; the two results take
different branches and are never conflated. -/
theorem plannerNullVsEmpty (plan : Nat → Option (List Action)) (ok : Nat → Nat → Bool)
    (fuel retryCount planCalls : Nat) (acc : List (Action × Bool))
    (h : retryCount < maxRetries) :
    (plan planCalls = none →
      planLoop plan ok (fuel + 1) retryCount planCalls acc =
        planLoop plan ok fuel (retryCount + 1) (planCalls + 1) acc) ∧
    (plan planCalls = some [] →
      planLoop plan ok (fuel + 1) retryCount planCalls acc =
        some (true, acc, planCalls + 1)) := by
  constructor <;> intro hp <;> rw [planLoop, if_pos h, hp]

/-- C7 witness: a Planner that fails once and then signals "done". -/
theorem plannerNullVsEmpty_witness :
    planNullThenDone 0 = none ∧ planNullThenDone 1 = some [] ∧
    planLoop planNullThenDone (fun _ _ => true) 3 0 0 [] =
      planLoop planNullThenDone (fun _ _ => true) 2 1 1 [] ∧
    planLoop planNullThenDone (fun _ _ => true) 2 1 1 [] = some (true, [], 2) :=
  ⟨rfl, rfl,
    (plannerNullVsEmpty planNullThenDone (fun _ _ => true) 2 0 0 [] (by decide)).1 rfl,
    (plannerNullVsEmpty planNullThenDone (fun _ _ => true) 1 1 1 [] (by decide)).2 rfl⟩

/-! ## C2: when the executor stores -/

/-- C2 counterexample: a cached-replay run that terminates Completed
(returns `True`) submits nothing to the cache — the cached path returns
before the storage block, contradicting the claim that every terminal
state submits results with `userConfirmed = (state == Completed)`. -/
theorem cachedPathStoresNothing :
    (getSimilarTask hitState "find gbp").isSome = true ∧
    executeRequest hitState "find gbp" (fun _ => none) (fun _ _ => true) (fun _ => true) 4 =
      some ⟨true, [(sampleAction, true)], 0, none⟩ := by
  exact ⟨by decide, by decide⟩

/-- C2 amended: a completed `execute_request` submits
`store_sequence_with_results` only on the planned path and only when at
least one action was executed; the cached-replay path (either terminal
state) and runs with no executed actions store nothing.  When a store
happens it carries the executed action list, the full result records in
the position where per-action booleans are expected (each record is a
non-empty dict, hence truthy), and `user_confirmed = success`. -/
theorem storeSubmissionCharacterization (st : CacheState) (request : String)
    (plan : Nat → Option (List Action)) (ok : Nat → Nat → Bool) (cachedOk : Nat → Bool)
    (fuel : Nat) (res : ExecResult)
    (hrun : executeRequest st request plan ok cachedOk fuel = some res) :
    ((getSimilarTask st request).isSome = true → res.stored = none) ∧
    (res.records = [] → res.stored = none) ∧
    (getSimilarTask st request = none → res.records ≠ [] →
      res.stored = some ⟨request, res.records.map (fun r => r.1),
        res.records.map (fun _ => true), res.success⟩) := by
  rcases hget : getSimilarTask st request with _ | c
  · rw [executeRequest, hget] at hrun
    dsimp only at hrun
    rcases hpl : planLoop plan ok fuel 0 0 [] with _ | t
    · rw [hpl] at hrun
      exact absurd hrun (by simp)
    · obtain ⟨succ, acc, pc⟩ := t
      rw [hpl] at hrun
      dsimp only at hrun
      injection hrun with h
      subst h
      refine ⟨?_, ?_, ?_⟩
      · intro hs
        exact absurd hs (by simp)
      · intro hrec
        dsimp only at hrec ⊢
        rw [if_neg (by simp [hrec])]
      · intro _ hrec
        dsimp only at hrec ⊢
        rw [if_pos hrec]
  · rw [executeRequest, hget] at hrun
    dsimp only at hrun
    injection hrun with h
    subst h
    refine ⟨fun _ => rfl, fun _ => rfl, fun hnone _ => ?_⟩
    exact absurd hnone (by simp)

/-- C2 witness: a planned run with one executed action stores the action
list with `user_confirmed = success = true`. -/
theorem storeSubmissionCharacterization_witness :
    executeRequest ⟨[], [], none⟩ "t" planOneThenDone (fun _ _ => true) (fun _ => true) 4 =
      some resOneThenDone ∧
    resOneThenDone.stored = some ⟨"t", resOneThenDone.records.map (fun r => r.1),
      resOneThenDone.records.map (fun _ => true), resOneThenDone.success⟩ :=
  ⟨by decide,
    (storeSubmissionCharacterization ⟨[], [], none⟩ "t" planOneThenDone (fun _ _ => true)
      (fun _ => true) 4 resOneThenDone (by decide)).2.2 (by decide) (by decide)⟩

end Zigral
